import Mathlib

/-!
Verification development for the AWD-policy suitability analysis core:
the dekad water-balance suitability model (`src/water_balance`), the
biophysical constraint composition (`src/biophysical_constraints`), the
fragmentation / patch analysis and extension-cost model
(`src/spatial_analysis`), and the classification utilities (`src/utils`).

Grids (numpy 2-D arrays) are modelled as lists of rows; real-valued data
is modelled by `ℚ`; functions that can raise a Python exception are
modelled with `Option` (`none` = the call raises).
-/

namespace AWD

/-- A 2-D grid: list of rows. Models a numpy 2-D array. -/
abbrev Grid (α : Type) := List (List α)

/-- Element access `g[i][j]` as an `Option`. -/
def cellAt (g : Grid α) (i j : ℕ) : Option α :=
  (g[i]?).bind (fun row => row[j]?)

/-- Element access with a default value; numpy indexing is always in
bounds for the rectangular inputs the code receives, so the default is
never observed there. -/
def getCell [Inhabited α] (g : Grid α) (i j : ℕ) : α :=
  (cellAt g i j).getD default

/-- `g` is a rectangular `r × c` grid (a well-formed numpy array shape). -/
def IsRect (g : Grid α) (r c : ℕ) : Prop :=
  g.length = r ∧ ∀ row ∈ g, row.length = c

instance {α : Type} (g : Grid α) (r c : ℕ) : Decidable (IsRect g r c) := by
  unfold IsRect
  infer_instance

/-- Number of rows (`arr.shape[0]`). -/
def numRows (g : Grid α) : ℕ := g.length

/-- Number of columns (`arr.shape[1]`; 0 for an empty grid). -/
def numCols (g : Grid α) : ℕ := ((g.head?).map List.length).getD 0

/-! ## Soil drainage classification (`classify_drainage`) -/

/-- Per-cell embedding of `classify_drainage`
(`src/biophysical_constraints/__init__.py`, lines 78-99).  The numpy code
initialises both output arrays to zero and then performs four masked
assignments in order (well, mod, imperf, poor); a later mask that also
covers a cell overwrites the earlier assignment.  Both outputs are set by
the same masks, so a single sequential per-cell computation of the pair
`(drainage_class, percolation_rate)` is exact. -/
def classify_drainage_cell (clay sand : ℚ) : ℤ × ℚ :=
  let s0 : ℤ × ℚ := (0, 0)
  let s1 := if clay < 20 ∧ 60 < sand then ((1 : ℤ), (12 : ℚ)) else s0
  let s2 := if (20 ≤ clay ∧ clay < 35) ∨ (30 ≤ sand ∧ sand ≤ 60) then ((2 : ℤ), (8 : ℚ)) else s1
  let s3 := if 35 ≤ clay ∧ clay < 50 then ((3 : ℤ), (4 : ℚ)) else s2
  if 50 ≤ clay then ((4 : ℤ), (3 : ℚ)) else s3

/-- Grid-level `classify_drainage`: elementwise application of the masked
assignment sequence; returns the pair (drainage_class grid,
percolation_rate grid). -/
def classify_drainage (clay sand : Grid ℚ) : Grid ℤ × Grid ℚ :=
  (List.zipWith (fun rc rs => List.zipWith (fun c s => (classify_drainage_cell c s).1) rc rs)
      clay sand,
   List.zipWith (fun rc rs => List.zipWith (fun c s => (classify_drainage_cell c s).2) rc rs)
      clay sand)

/-- At least one of the four texture rules of `classify_drainage` matches. -/
def drainageRuleMatches (clay sand : ℚ) : Prop :=
  (clay < 20 ∧ 60 < sand) ∨ ((20 ≤ clay ∧ clay < 35) ∨ (30 ≤ sand ∧ sand ≤ 60)) ∨
    (35 ≤ clay ∧ clay < 50) ∨ 50 ≤ clay

instance (c s : ℚ) : Decidable (drainageRuleMatches c s) := by
  unfold drainageRuleMatches; infer_instance

/-- The claim's reading of the rule table: an ordered FIRST-match cascade
in which later rules only affect cells not already classified, and every
cell is asserted to receive a class in {1,2,3,4}. -/
def firstMatchDrainageClass (clay sand : ℚ) : ℤ :=
  if clay < 20 ∧ 60 < sand then 1
  else if (20 ≤ clay ∧ clay < 35) ∨ (30 ≤ sand ∧ sand ≤ 60) then 2
  else if 35 ≤ clay ∧ clay < 50 then 3
  else if 50 ≤ clay then 4
  else 0

/-- Last-match-wins reading of the four rules: the class (and paired rate)
of the LAST rule in source order that matches, and `(0, 0)` when no rule
matches.  This is what sequential overwriting masked assignment computes. -/
def lastMatchDrainage (clay sand : ℚ) : ℤ × ℚ :=
  if 50 ≤ clay then ((4 : ℤ), (3 : ℚ))
  else if 35 ≤ clay ∧ clay < 50 then ((3 : ℤ), (4 : ℚ))
  else if (20 ≤ clay ∧ clay < 35) ∨ (30 ≤ sand ∧ sand ≤ 60) then ((2 : ℤ), (8 : ℚ))
  else if clay < 20 ∧ 60 < sand then ((1 : ℤ), (12 : ℚ))
  else ((0 : ℤ), (0 : ℚ))

/-- The percolation rate the source table pairs with each drainage class
(class 0 = untouched initialisation, rate 0). -/
def percRateOf (c : ℤ) : ℚ :=
  if c = 1 then 12 else if c = 2 then 8 else if c = 3 then 4 else if c = 4 then 3 else 0

/-! ## Water-balance suitability (`src/water_balance/__init__.py`) -/

/-- `assess_awd_suitability_dekad` (lines 97-114): a dekad is suitable iff
its water balance is negative but not below the deficit threshold. -/
def assess_awd_suitability_dekad (water_balance t : ℚ) : Bool :=
  decide (water_balance < 0) && decide (t ≤ water_balance)

/-- Clamp one endpoint of a Python slice `l[a:b]` to `[0, n]`. -/
def pyIdx (n : ℕ) (i : ℤ) : ℕ :=
  if i < 0 then (i + n).toNat else min i.toNat n

/-- Python list slice `l[a:b]` (step 1). -/
def pySlice (l : List α) (a b : ℤ) : List α :=
  (l.drop (pyIdx l.length a)).take (pyIdx l.length b - pyIdx l.length a)

/-- `compute_awd_suitability_index` (lines 117-161): degenerate active
window returns `(0.0, 0, 0)`; otherwise the series is sliced on
`[active_start : active_end + 1]`, suitable dekads are counted, and the
fraction is `count / total` (0 when the slice is empty). -/
def compute_awd_suitability_index (series : List ℚ)
    (season_start_dekad season_end_dekad exclude_first exclude_last : ℤ)
    (deficit_threshold : ℚ) : ℚ × ℕ × ℕ :=
  let active_start := season_start_dekad + exclude_first
  let active_end := season_end_dekad - exclude_last
  if active_end ≤ active_start then (0, 0, 0)
  else
    let active := pySlice series active_start (active_end + 1)
    let num_suitable := (active.filter (fun wb => assess_awd_suitability_dekad wb deficit_threshold)).length
    let num_total := active.length
    let fraction : ℚ := if 0 < num_total then (num_suitable : ℚ) / (num_total : ℚ) else 0
    (fraction, num_suitable, num_total)

/-- True iff `compute_awd_suitability_index` executes the branch that
emits `logger.warning("Active season window too small after exclusions")`,
i.e. iff `active_start >= active_end`.  This is the only warning the
function can signal. -/
def awd_index_warns (season_start_dekad season_end_dekad exclude_first exclude_last : ℤ) : Bool :=
  decide (season_end_dekad - exclude_last ≤ season_start_dekad + exclude_first)

/-- `classify_suitability_from_fraction` (lines 164-188): a plain
if/elif/else chain with NO range validation of the fraction. -/
def classify_suitability_from_fraction (fraction_suitable high_threshold moderate_threshold : ℚ) : ℤ :=
  if high_threshold ≤ fraction_suitable then 3
  else if moderate_threshold ≤ fraction_suitable then 2
  else 1

/-- `classify_awd_suitability` (`src/utils.py`, lines 104-132): raises
`ValueError` (modelled as `none`) when the fraction is outside `[0, 1]`,
otherwise the same if/elif/else chain. -/
def classify_awd_suitability (fraction_suitable high_threshold moderate_threshold : ℚ) : Option ℤ :=
  if ¬(0 ≤ fraction_suitable ∧ fraction_suitable ≤ 1) then none
  else if high_threshold ≤ fraction_suitable then some 3
  else if moderate_threshold ≤ fraction_suitable then some 2
  else some 1

/-! ## Connected-component labeling and fragmentation
(`src/spatial_analysis/__init__.py`)

`scipy.ndimage.label` with the default structuring element labels the
maximal 4-connected components of the nonzero cells, assigning labels
`1..n` in raster-scan order of first encounter (label 0 = background).
The first-encountered cell of a component is the one with the minimal
flat index `i * numCols + j`, so the model below computes, for every
foreground cell, the minimal flat index of its component (by iterating a
neighbourhood-min step enough times to converge) and then numbers the
distinct component representatives in increasing order. -/

/-- Foreground test of a cell (out-of-range cells are background). -/
def cellTrue (g : Grid Bool) (i j : ℕ) : Bool := getCell g i j

/-- Raster-scan flat index of cell `(i, j)`. -/
def flatIdx (g : Grid Bool) (i j : ℕ) : ℕ := i * numCols g + j

/-- The 4-neighbourhood of `(i, j)` (clipped at the top/left border;
out-of-range right/bottom neighbours are background anyway). -/
def neighbors4 (i j : ℕ) : List (ℕ × ℕ) :=
  (if i = 0 then [] else [(i - 1, j)]) ++ (if j = 0 then [] else [(i, j - 1)]) ++
    [(i + 1, j), (i, j + 1)]

/-- One label-propagation step: every foreground cell takes the minimum
of its own value and the values of its foreground 4-neighbours. -/
def stepMin (g : Grid Bool) (f : ℕ → ℕ → ℕ) : ℕ → ℕ → ℕ := fun i j =>
  if cellTrue g i j then
    ((neighbors4 i j).filter (fun p => cellTrue g p.1 p.2)).foldr
      (fun p m => min (f p.1 p.2) m) (f i j)
  else f i j

/-- Iterated propagation starting from the flat index of each cell. -/
def iterMin (g : Grid Bool) : ℕ → ℕ → ℕ → ℕ
  | 0 => fun i j => flatIdx g i j
  | n + 1 => stepMin g (iterMin g n)

/-- Minimal flat index of the component of `(i, j)` (for foreground
cells; `numRows * numCols` steps suffice for convergence). -/
def compMinAt (g : Grid Bool) (i j : ℕ) : ℕ :=
  iterMin g (numRows g * numCols g) i j

/-- All foreground cells, in raster-scan order. -/
def trueCells (g : Grid Bool) : List (ℕ × ℕ) :=
  (List.range (numRows g)).flatMap (fun i =>
    ((List.range (numCols g)).filter (fun j => cellTrue g i j)).map (fun j => (i, j)))

/-- Component representative (minimal flat index) of every foreground cell. -/
def compMinVals (g : Grid Bool) : List ℕ :=
  (trueCells g).map (fun p => compMinAt g p.1 p.2)

/-- The distinct component representatives in increasing order (= the
raster-scan order in which `scipy.ndimage.label` first meets each
component). -/
def repList (g : Grid Bool) : List ℕ :=
  (List.range (numRows g * numCols g)).filter (fun v => (compMinVals g).contains v)

/-- `n` returned by `scipy.ndimage.label`: the number of components. -/
def n_patches (g : Grid Bool) : ℕ := (repList g).length

/-- Label of cell `(i, j)` in the labeled array: 0 for background,
otherwise 1 + the rank of the cell's component representative. -/
def labelAt (g : Grid Bool) (i j : ℕ) : ℕ :=
  if cellTrue g i j then (repList g).indexOf (compMinAt g i j) + 1 else 0

/-- The labeled array returned by `scipy.ndimage.label`. -/
def labeledGrid (g : Grid Bool) : Grid ℕ :=
  (List.range (numRows g)).map (fun i =>
    (List.range (numCols g)).map (fun j => labelAt g i j))

/-- `labeled_array.ravel()`. -/
def flatLabels (g : Grid Bool) : List ℕ := (labeledGrid g).flatten

/-- `np.bincount` on a nonempty list of naturals: occurrence counts of
the values `0 .. max`. -/
def bincount (l : List ℕ) : List ℕ :=
  (List.range (l.foldr max 0 + 1)).map (fun v => l.count v)

/-- `patch_sizes = np.bincount(labeled_array.ravel())[1:]`
(`compute_fragmentation_index`, line 55). -/
def patch_sizes (g : Grid Bool) : List ℕ := (bincount (flatLabels g)).drop 1

/-- The dictionary returned by `compute_fragmentation_index`. -/
structure FragSummary where
  n_patches : ℕ
  mean_patch_size : ℚ
  max_patch_size : ℕ
  min_patch_size : ℕ
  fragmentation_index : ℚ
  total_suitable_cells : ℕ
deriving DecidableEq

/-- `compute_fragmentation_index` (`src/spatial_analysis/__init__.py`,
lines 40-73): early all-zero return when no patch exists, otherwise
mean/max/min of the patch sizes and `fragmentation_index = mean / max`
(guarded by `max > 0`). -/
def compute_fragmentation_index (g : Grid Bool) : FragSummary :=
  if n_patches g = 0 then ⟨0, 0, 0, 0, 0, 0⟩
  else
    let sizes := patch_sizes g
    let mean_size : ℚ := (sizes.sum : ℚ) / (sizes.length : ℚ)
    let max_size : ℕ := sizes.foldr max 0
    let min_size : ℕ := sizes.foldr min (sizes.headD 0)
    let fi : ℚ := if 0 < max_size then mean_size / (max_size : ℚ) else 0
    ⟨n_patches g, mean_size, max_size, min_size, fi, sizes.sum⟩

/-- One row of the cluster table built by `identify_suitability_clusters`. -/
structure ClusterRow where
  cluster_id : ℕ
  size_pixels : ℕ
  min_row : ℕ
  max_row : ℕ
  min_col : ℕ
  max_col : ℕ
  extent_rows : ℕ
  extent_cols : ℕ
deriving DecidableEq

/-- Cells carrying a given label, in raster-scan order
(`np.where(labeled_array == cluster_id)`). -/
def clusterCells (g : Grid Bool) (cid : ℕ) : List (ℕ × ℕ) :=
  (List.range (numRows g)).flatMap (fun i =>
    ((List.range (numCols g)).filter (fun j => labelAt g i j == cid)).map (fun j => (i, j)))

/-- Insertion step for sorting cluster rows by size, descending. -/
def insertBySizeDesc (x : ClusterRow) : List ClusterRow → List ClusterRow
  | [] => [x]
  | y :: ys => if y.size_pixels < x.size_pixels then x :: y :: ys else y :: insertBySizeDesc x ys

/-- `DataFrame.sort_values("size_pixels", ascending=False)`. -/
def sortBySizeDesc (rows : List ClusterRow) : List ClusterRow :=
  rows.foldr insertBySizeDesc []

/-- `identify_suitability_clusters` (`src/spatial_analysis/__init__.py`,
lines 171-220): for each label `1..n` the component size and bounding box
are collected unless the size is below `min_cluster_size`; the rows are
then put in a DataFrame and sorted by size descending.  When the row list
is empty, `pd.DataFrame([])` has no columns and
`.sort_values("size_pixels")` raises `KeyError`, modelled as `none`. -/
def identify_suitability_clusters (g : Grid Bool) (min_cluster_size : ℕ) :
    Option (List ClusterRow) :=
  let rows := (List.range (n_patches g)).filterMap (fun k =>
    let cid := k + 1
    let cells := clusterCells g cid
    let size := cells.length
    if size < min_cluster_size then none
    else
      let rs := cells.map Prod.fst
      let cs := cells.map Prod.snd
      let mnr := rs.foldr min (rs.headD 0)
      let mxr := rs.foldr max 0
      let mnc := cs.foldr min (cs.headD 0)
      let mxc := cs.foldr max 0
      some ⟨cid, size, mnr, mxr, mnc, mxc, mxr - mnr, mxc - mnc⟩)
  if rows.isEmpty then none
  else some (sortBySizeDesc rows)

/-! ## Composite biophysical feasibility with numpy broadcasting -/

/-- numpy dimension broadcasting: equal sizes, or a size-1 axis stretched
to the other size; anything else is an error. -/
def bcDim (a b : ℕ) : Option ℕ :=
  if a = b then some a else if a = 1 then some b else if b = 1 then some a else none

/-- Index into a source axis of length `srcLen` when broadcasting. -/
def bcIdx (srcLen idx : ℕ) : ℕ := if srcLen = 1 then 0 else idx

/-- Elementwise binary operation on two 2-D arrays with numpy
broadcasting; `none` models the `ValueError` numpy raises on
incompatible shapes. -/
def broadcast2 [Inhabited α] [Inhabited β] (f : α → β → γ) (a : Grid α) (b : Grid β) :
    Option (Grid γ) :=
  match bcDim (numRows a) (numRows b), bcDim (numCols a) (numCols b) with
  | some r, some c =>
      some ((List.range r).map (fun i => (List.range c).map (fun j =>
        f (getCell a (bcIdx (numRows a) i) (bcIdx (numCols a) j))
          (getCell b (bcIdx (numRows b) i) (bcIdx (numCols b) j)))))
  | _, _ => none

/-- `compute_biophysical_suitability`
(`src/biophysical_constraints/__init__.py`, lines 113-147):
`slope_feasible & (drainage_class <= drainage_threshold) &
(water_balance_suitability >= 2)`.  The scalar comparisons are
elementwise (shape preserving); the two `&` operations broadcast
left-to-right.  The function performs NO shape validation of its own. -/
def compute_biophysical_suitability (slope_feasible : Grid Bool)
    (drainage_class water_balance_suitability : Grid ℤ)
    (drainage_threshold : ℤ) : Option (Grid Bool) :=
  let drainOK := drainage_class.map (fun row => row.map (fun v => decide (v ≤ drainage_threshold)))
  let wbOK := water_balance_suitability.map (fun row => row.map (fun v => decide (2 ≤ v)))
  match broadcast2 (fun x y => x && y) slope_feasible drainOK with
  | none => none
  | some g1 => broadcast2 (fun x y => x && y) g1 wbOK

/-! ## Extension cost (`estimate_extension_cost`) -/

/-- `estimate_extension_cost` (`src/spatial_analysis/__init__.py`,
lines 84-120): `area * base * (1 + 3.8 * fragmentation_index)`. -/
def estimate_extension_cost (fragmentation_index total_suitable_area_km2 base_cost_per_km2 : ℚ) : ℚ :=
  let cost_multiplier := 1 + 3.8 * fragmentation_index
  total_suitable_area_km2 * base_cost_per_km2 * cost_multiplier

/-! ## Helper lemmas -/

theorem getElem?_zipWith_some {α β γ : Type} {f : α → β → γ} :
    ∀ {a : List α} {b : List β} {i : ℕ} {x : α} {y : β},
      a[i]? = some x → b[i]? = some y → (List.zipWith f a b)[i]? = some (f x y) := by
  intro a
  induction a with
  | nil => intro b i x y hx; simp at hx
  | cons ha ta ih =>
    intro b i x y hx hy
    cases b with
    | nil => simp at hy
    | cons hb tb =>
      cases i with
      | zero =>
        simp only [List.getElem?_cons_zero, Option.some.injEq] at hx hy
        simp [List.zipWith, hx, hy]
      | succ n =>
        simp only [List.getElem?_cons_succ] at hx hy
        simpa using ih hx hy

theorem cellAt_zipWith {α β γ : Type} (f : α → β → γ) (a : Grid α) (b : Grid β)
    (i j : ℕ) (x : α) (y : β)
    (hx : cellAt a i j = some x) (hy : cellAt b i j = some y) :
    cellAt (List.zipWith (fun ra rb => List.zipWith f ra rb) a b) i j = some (f x y) := by
  unfold cellAt at *
  cases hra : a[i]? with
  | none => rw [hra] at hx; simp at hx
  | some ra =>
    cases hrb : b[i]? with
    | none => rw [hrb] at hy; simp at hy
    | some rb =>
      rw [hra] at hx; rw [hrb] at hy
      simp only [Option.some_bind] at hx hy ⊢
      rw [getElem?_zipWith_some (f := fun ra rb => List.zipWith f ra rb) hra hrb]
      simp only [Option.some_bind]
      exact getElem?_zipWith_some hx hy

theorem classify_drainage_cell_eq_lastMatch (clay sand : ℚ) :
    classify_drainage_cell clay sand = lastMatchDrainage clay sand := rfl

theorem lastMatch_rate_eq_percRateOf (clay sand : ℚ) :
    (lastMatchDrainage clay sand).2 = percRateOf (lastMatchDrainage clay sand).1 := by
  simp only [lastMatchDrainage]
  split_ifs <;> rfl

theorem lastMatch_zero_iff (clay sand : ℚ) :
    lastMatchDrainage clay sand = (0, 0) ↔ ¬ drainageRuleMatches clay sand := by
  unfold lastMatchDrainage drainageRuleMatches
  split_ifs with h4 h3 h2 h1
  · exact iff_of_false (by simp) (not_not_intro (Or.inr (Or.inr (Or.inr h4))))
  · exact iff_of_false (by simp) (not_not_intro (Or.inr (Or.inr (Or.inl h3))))
  · exact iff_of_false (by simp) (not_not_intro (Or.inr (Or.inl h2)))
  · exact iff_of_false (by simp) (not_not_intro (Or.inl h1))
  · refine iff_of_true rfl ?_
    rintro (h | h | h | h)
    exacts [h1 h, h2 h, h3 h, h4 h]

/-! ## Claim theorems -/

/-- C1 counterexample.  The claim "every cell gets exactly one class in
{1,2,3,4} via an ordered FIRST-match cascade" is false on the code: a
cell with clay=10, sand=10 matches no rule and keeps class 0, and a cell
with clay=40, sand=40 is classified 3 by the code (the later imperfect
rule overwrites the moderate rule), while a first-match cascade would
leave it at class 2. -/
theorem claim1_counterexample :
    (classify_drainage_cell 10 10).1 = 0 ∧ ((0 : ℤ) ∉ ({1, 2, 3, 4} : Finset ℤ)) ∧
    (classify_drainage_cell 40 40).1 = 3 ∧ firstMatchDrainageClass 40 40 = 2 := by
  refine ⟨by decide, by decide, by decide, by decide⟩

/-- C1 (amended): `classify_drainage` assigns every cell exactly one
class in {0,1,2,3,4}: the four texture rules are applied as an ordered
cascade in which a later matching rule OVERWRITES the class assigned by
an earlier rule (last match wins), and a cell matched by no rule keeps
the initial class 0. -/
theorem claim1_amended (clay sand : Grid ℚ) (i j : ℕ) (c s : ℚ)
    (hc : cellAt clay i j = some c) (hs : cellAt sand i j = some s) :
    cellAt (classify_drainage clay sand).1 i j = some ((lastMatchDrainage c s).1) ∧
    (lastMatchDrainage c s).1 ∈ ({0, 1, 2, 3, 4} : Finset ℤ) := by
  constructor
  · rw [← classify_drainage_cell_eq_lastMatch]
    exact cellAt_zipWith (fun a b => (classify_drainage_cell a b).1) clay sand i j c s hc hs
  · unfold lastMatchDrainage
    split_ifs <;> decide

/-- C1 witness. -/
theorem claim1_witness :
    cellAt ([[(40 : ℚ)]] : Grid ℚ) 0 0 = some 40 ∧
    cellAt ([[(40 : ℚ)]] : Grid ℚ) 0 0 = some 40 ∧
    (cellAt (classify_drainage [[(40 : ℚ)]] [[(40 : ℚ)]]).1 0 0 =
        some ((lastMatchDrainage 40 40).1) ∧
      (lastMatchDrainage (40 : ℚ) (40 : ℚ)).1 ∈ ({0, 1, 2, 3, 4} : Finset ℤ)) :=
  ⟨by decide, by decide, claim1_amended [[40]] [[40]] 0 0 40 40 (by decide) (by decide)⟩

/-- C10: on every cell the two outputs of `classify_drainage` are
consistent: the percolation rate is the function `percRateOf` of the
drainage class (class 1 ↦ 12.0, 2 ↦ 8.0, 3 ↦ 4.0, 4 ↦ 3.0 mm/day), and a
cell matched by no rule is left at class 0 with rate 0.0. -/
theorem claim10_class_rate_consistency (clay sand : Grid ℚ) (i j : ℕ) (c s : ℚ)
    (hc : cellAt clay i j = some c) (hs : cellAt sand i j = some s) :
    ∃ cl : ℤ, ∃ p : ℚ,
      cellAt (classify_drainage clay sand).1 i j = some cl ∧
      cellAt (classify_drainage clay sand).2 i j = some p ∧
      p = percRateOf cl ∧
      ((cl, p) = ((0 : ℤ), (0 : ℚ)) ↔ ¬ drainageRuleMatches c s) := by
  refine ⟨(classify_drainage_cell c s).1, (classify_drainage_cell c s).2, ?_, ?_, ?_, ?_⟩
  · exact cellAt_zipWith (fun c s => (classify_drainage_cell c s).1) clay sand i j c s hc hs
  · exact cellAt_zipWith (fun c s => (classify_drainage_cell c s).2) clay sand i j c s hc hs
  · rw [classify_drainage_cell_eq_lastMatch]
    exact lastMatch_rate_eq_percRateOf c s
  · rw [classify_drainage_cell_eq_lastMatch]
    exact lastMatch_zero_iff c s

/-- C10 witness. -/
theorem claim10_witness :
    cellAt ([[(10 : ℚ)]] : Grid ℚ) 0 0 = some 10 ∧
    cellAt ([[(70 : ℚ)]] : Grid ℚ) 0 0 = some 70 ∧
    (∃ cl : ℤ, ∃ p : ℚ,
      cellAt (classify_drainage [[(10 : ℚ)]] [[(70 : ℚ)]]).1 0 0 = some cl ∧
      cellAt (classify_drainage [[(10 : ℚ)]] [[(70 : ℚ)]]).2 0 0 = some p ∧
      p = percRateOf cl ∧
      ((cl, p) = ((0 : ℤ), (0 : ℚ)) ↔ ¬ drainageRuleMatches 10 70)) :=
  ⟨by decide, by decide,
    claim10_class_rate_consistency [[10]] [[70]] 0 0 10 70 (by decide) (by decide)⟩

/-- C4 counterexample.  The claim asserts that for every fraction outside
`[0, 1]` classify raises an invalid-input error and does not return a
class.  `classify_suitability_from_fraction` (the classifier of the
water-balance module, used by the sensitivity sweep) performs no range
check: at fraction 3/2 it simply returns class 3.  Only the utils twin
`classify_awd_suitability` raises. -/
theorem claim4_counterexample :
    classify_suitability_from_fraction (3 / 2) 0.66 0.33 = 3 ∧
    classify_awd_suitability (3 / 2) 0.66 0.33 = none := by
  constructor
  · unfold classify_suitability_from_fraction
    rw [if_pos (by norm_num)]
  · unfold classify_awd_suitability
    rw [if_pos]
    norm_num

/-- C4 (amended): `classify_awd_suitability` (utils) rejects fractions
outside `[0, 1]` with an invalid-input error and otherwise agrees with
`classify_suitability_from_fraction`; the latter performs no range
validation and returns 3 when fraction ≥ high, 2 when
moderate ≤ fraction < high, and 1 otherwise, for every input. -/
theorem claim4_amended (f high moderate : ℚ) :
    ((f < 0 ∨ 1 < f) → classify_awd_suitability f high moderate = none) ∧
    (0 ≤ f → f ≤ 1 →
      classify_awd_suitability f high moderate =
        some (classify_suitability_from_fraction f high moderate)) ∧
    (high ≤ f → classify_suitability_from_fraction f high moderate = 3) ∧
    (moderate ≤ f → f < high → classify_suitability_from_fraction f high moderate = 2) ∧
    (f < moderate → f < high → classify_suitability_from_fraction f high moderate = 1) := by
  unfold classify_awd_suitability classify_suitability_from_fraction
  refine ⟨?_, ?_, ?_, ?_, ?_⟩
  · intro h
    rw [if_pos]
    rintro ⟨h0, h1⟩
    rcases h with h | h
    · linarith
    · linarith
  · intro h0 h1
    rw [if_neg (not_not_intro ⟨h0, h1⟩)]
    split_ifs <;> rfl
  · intro h3
    rw [if_pos h3]
  · intro hm hh
    rw [if_neg (not_le.mpr hh), if_pos hm]
  · intro hm hh
    rw [if_neg (not_le.mpr hh), if_neg (not_le.mpr hm)]

/-- C4 witness. -/
theorem claim4_witness :
    ((3 : ℚ) / 2 < 0 ∨ 1 < (3 : ℚ) / 2) ∧
    classify_awd_suitability (3 / 2) 0.66 0.33 = none ∧
    (0 ≤ (1 : ℚ) / 2 ∧ (1 : ℚ) / 2 ≤ 1) ∧
    classify_awd_suitability (1 / 2) 0.66 0.33 =
      some (classify_suitability_from_fraction (1 / 2) 0.66 0.33) :=
  ⟨Or.inr (by norm_num),
    (claim4_amended (3 / 2) 0.66 0.33).1 (Or.inr (by norm_num)),
    ⟨by norm_num, by norm_num⟩,
    (claim4_amended (1 / 2) 0.66 0.33).2.1 (by norm_num) (by norm_num)⟩

/-- C6: for fragmentation index in [0,1], area ≥ 0 and base cost > 0,
`estimate_extension_cost` returns exactly
`base * area * (1 + 3.8 * index)`, is monotone in the index holding the
area fixed and in the area holding the index fixed, and at index 0 it is
exactly `base * area`. -/
theorem claim6_cost_formula_monotone (idx idx2 area area2 base : ℚ)
    (h0 : 0 ≤ idx) (h1 : idx ≤ 1) (ha : 0 ≤ area) (hb : 0 < base) :
    estimate_extension_cost idx area base = base * area * (1 + 3.8 * idx) ∧
    (idx ≤ idx2 →
      estimate_extension_cost idx area base ≤ estimate_extension_cost idx2 area base) ∧
    (area ≤ area2 →
      estimate_extension_cost idx area base ≤ estimate_extension_cost idx area2 base) ∧
    estimate_extension_cost 0 area base = base * area := by
  unfold estimate_extension_cost
  refine ⟨by ring, ?_, ?_, by ring⟩
  · intro h
    have hs : 0 ≤ idx2 - idx := by linarith
    nlinarith [mul_nonneg (mul_nonneg ha hb.le) hs]
  · intro h
    nlinarith [mul_nonneg (sub_nonneg.mpr h) hb.le,
      mul_nonneg (mul_nonneg (sub_nonneg.mpr h) hb.le) h0]

/-- C6 witness. -/
theorem claim6_witness :
    (0 ≤ (1 : ℚ) / 2 ∧ (1 : ℚ) / 2 ≤ 1 ∧ 0 ≤ (2 : ℚ) ∧ 0 < (5 : ℚ)) ∧
    (estimate_extension_cost (1 / 2) 2 5 = 5 * 2 * (1 + 3.8 * (1 / 2)) ∧
      ((1 : ℚ) / 2 ≤ 1 →
        estimate_extension_cost (1 / 2) 2 5 ≤ estimate_extension_cost 1 2 5) ∧
      ((2 : ℚ) ≤ 3 →
        estimate_extension_cost (1 / 2) 2 5 ≤ estimate_extension_cost (1 / 2) 3 5) ∧
      estimate_extension_cost 0 2 5 = 5 * 2) :=
  ⟨⟨by norm_num, by norm_num, by norm_num, by norm_num⟩,
    claim6_cost_formula_monotone (1 / 2) 1 2 3 5
      (by norm_num) (by norm_num) (by norm_num) (by norm_num)⟩

/-- C3 counterexample.  The claim asserts that for thresholds
t1 < t2 < 0 the suitability fraction at t1 is ≤ the fraction at t2.
The acceptance band is `[threshold, 0)`, so LOWERING the threshold widens
the band: with the water-balance series below (active window = two dekads
at -60 mm), the fraction at t1 = -70 is 1 while at t2 = -50 it is 0. -/
theorem claim3_counterexample :
    ((-70 : ℚ) < -50 ∧ (-50 : ℚ) < 0) ∧
    compute_awd_suitability_index [0, 0, 0, -60, -60, 0] 1 5 2 1 (-70) = (1, 2, 2) ∧
    compute_awd_suitability_index [0, 0, 0, -60, -60, 0] 1 5 2 1 (-50) = (0, 0, 2) ∧
    ¬ ((compute_awd_suitability_index [0, 0, 0, -60, -60, 0] 1 5 2 1 (-70)).1 ≤
        (compute_awd_suitability_index [0, 0, 0, -60, -60, 0] 1 5 2 1 (-50)).1) := by
  have h70 : compute_awd_suitability_index [0, 0, 0, -60, -60, 0] 1 5 2 1 (-70) = (1, 2, 2) := by
    simp only [compute_awd_suitability_index, pySlice, pyIdx, assess_awd_suitability_dekad]
    norm_num [List.filter, show Int.toNat 5 = 5 from rfl, show Int.toNat 3 = 3 from rfl]
  have h50 : compute_awd_suitability_index [0, 0, 0, -60, -60, 0] 1 5 2 1 (-50) = (0, 0, 2) := by
    simp only [compute_awd_suitability_index, pySlice, pyIdx, assess_awd_suitability_dekad]
    norm_num [List.filter, show Int.toNat 5 = 5 from rfl, show Int.toNat 3 = 3 from rfl]
  refine ⟨by norm_num, h70, h50, ?_⟩
  rw [h70, h50]
  norm_num

/-- C3 (amended): the suitability fraction is ANTITONE in the deficit
threshold: for all t1 < t2 < 0 the fraction at t1 is ≥ the fraction at
t2 (the acceptance band `[threshold, 0)` widens as the threshold
decreases). -/
theorem claim3_amended_antitone (series : List ℚ) (s e ef el : ℤ) (t1 t2 : ℚ)
    (h12 : t1 < t2) (h20 : t2 < 0) :
    (compute_awd_suitability_index series s e ef el t2).1 ≤
      (compute_awd_suitability_index series s e ef el t1).1 := by
  simp only [compute_awd_suitability_index]
  split_ifs with hdeg hL
  · exact le_refl _
  · have hmono :
        ((pySlice series (s + ef) (e - el + 1)).filter
            (fun wb => assess_awd_suitability_dekad wb t2)).length ≤
          ((pySlice series (s + ef) (e - el + 1)).filter
            (fun wb => assess_awd_suitability_dekad wb t1)).length := by
      rw [← List.countP_eq_length_filter, ← List.countP_eq_length_filter]
      apply List.countP_mono_left
      intro wb _ hwb
      unfold assess_awd_suitability_dekad at hwb ⊢
      simp only [Bool.and_eq_true, decide_eq_true_eq] at hwb ⊢
      exact ⟨hwb.1, le_trans h12.le hwb.2⟩
    dsimp only
    gcongr
  · exact le_refl _

/-- C3 witness. -/
theorem claim3_witness :
    ((-70 : ℚ) < -50 ∧ (-50 : ℚ) < 0) ∧
    (compute_awd_suitability_index [0, 0, 0, -60, -60, 0] 1 5 2 1 (-50)).1 ≤
      (compute_awd_suitability_index [0, 0, 0, -60, -60, 0] 1 5 2 1 (-70)).1 :=
  ⟨⟨by norm_num, by norm_num⟩,
    claim3_amended_antitone [0, 0, 0, -60, -60, 0] 1 5 2 1 (-70) (-50)
      (by norm_num) (by norm_num)⟩

/-- C7 counterexample.  The claim asserts that for an empty time series
the function returns `(0.0, 0, 0)` WITH a warning signal.  With a
non-degenerate window (season 1..10 with default exclusions) the empty
series does return `(0.0, 0, 0)`, but the degenerate-window warning
branch is not taken, so no warning is signalled. -/
theorem claim7_counterexample :
    compute_awd_suitability_index [] 1 10 2 1 (-50) = (0, 0, 0) ∧
    awd_index_warns 1 10 2 1 = false := by
  refine ⟨by decide, by decide⟩

/-- C7 (amended): a degenerate active window (activeStart ≥ activeEnd)
returns `(0.0, 0, 0)` and signals the warning; an empty time series also
returns `(0.0, 0, 0)` without raising, but signals the warning only when
the window is degenerate. -/
theorem claim7_amended (series : List ℚ) (s e ef el : ℤ) (t : ℚ)
    (h : e - el ≤ s + ef ∨ series = []) :
    compute_awd_suitability_index series s e ef el t = (0, 0, 0) ∧
    (e - el ≤ s + ef → awd_index_warns s e ef el = true) := by
  constructor
  · simp only [compute_awd_suitability_index]
    rcases h with h | h
    · rw [if_pos h]
    · subst h
      split_ifs with hdeg hL
      · rfl
      · simp [pySlice] at hL
      · simp [pySlice]
  · intro hdeg
    unfold awd_index_warns
    exact decide_eq_true hdeg

/-- C7 witness. -/
theorem claim7_witness :
    ((5 : ℤ) - 1 ≤ 5 + 2 ∨ ([] : List ℚ) = []) ∧
    (compute_awd_suitability_index [] 5 5 2 1 (-50) = (0, 0, 0) ∧
      ((5 : ℤ) - 1 ≤ 5 + 2 → awd_index_warns 5 5 2 1 = true)) :=
  ⟨Or.inl (by decide), claim7_amended [] 5 5 2 1 (-50) (Or.inl (by decide))⟩

/-- C8 (code bug): `compute_biophysical_suitability` performs no shape
validation; with numpy semantics, mismatched but broadcast-compatible
grids are silently broadcast instead of raising.  Here the 1×2 drainage
grid is stretched across the two rows of the 2×2 slope and water-balance
grids and a 2×2 result is returned, where the claim (and spec) require a
fatal invalid-input error. -/
theorem claim8_code_bug_eval :
    numRows ([[true, true], [true, true]] : Grid Bool) = 2 ∧
    numRows ([[(1 : ℤ), 1]] : Grid ℤ) = 1 ∧
    compute_biophysical_suitability [[true, true], [true, true]] [[1, 1]] [[2, 2], [2, 2]] 3 =
      some [[true, true], [true, true]] := by
  refine ⟨by decide, by decide, by decide⟩

/-- C9 (code bug): when every connected component is filtered out by
`min_cluster_size`, the row list is empty and
`pd.DataFrame([]).sort_values("size_pixels")` raises `KeyError` (an empty
frame has no columns), so `identify_suitability_clusters` raises instead
of returning an empty table.  Here the single 1-pixel component is
dropped by `min_cluster_size = 2` and the call fails (`none`). -/
theorem claim9_code_bug_eval :
    n_patches [[true]] = 1 ∧
    identify_suitability_clusters [[true]] 2 = none := by
  refine ⟨by decide, by decide⟩

theorem cellAt_isSome_bounds {α : Type} {g : Grid α} {r c : ℕ} {i j : ℕ} {v : α}
    (hrect : IsRect g r c) (h : cellAt g i j = some v) : i < r ∧ j < c := by
  unfold cellAt at h
  cases hrow : g[i]? with
  | none => rw [hrow] at h; simp at h
  | some row =>
    rw [hrow] at h
    simp only [Option.some_bind] at h
    have hi : i < g.length := (List.getElem?_eq_some_iff.mp hrow).1
    have hj : j < row.length := (List.getElem?_eq_some_iff.mp h).1
    have hrowmem : row ∈ g := List.getElem?_mem hrow
    exact ⟨hrect.1 ▸ hi, (hrect.2 row hrowmem) ▸ hj⟩

theorem getCell_of_cellAt {α : Type} [Inhabited α] {g : Grid α} {i j : ℕ} {v : α}
    (h : cellAt g i j = some v) : getCell g i j = v := by
  unfold getCell
  rw [h]
  rfl

theorem bcIdx_lt {n i : ℕ} (h : i < n) : bcIdx n i = i := by
  unfold bcIdx
  split_ifs with h1
  · omega
  · rfl

theorem numCols_of_rect {α : Type} {g : Grid α} {r c : ℕ} (h : IsRect g r c) (hr : 0 < r) :
    numCols g = c := by
  unfold numCols
  cases g with
  | nil =>
    exfalso
    have := h.1
    simp at this
    omega
  | cons row t =>
    simp only [List.head?_cons, Option.map_some', Option.getD_some]
    exact h.2 row (List.mem_cons_self _ _)

theorem broadcast2_rect {α β γ : Type} [Inhabited α] [Inhabited β] (f : α → β → γ)
    {a : Grid α} {b : Grid β} {r c : ℕ} (ha : IsRect a r c) (hb : IsRect b r c) :
    ∃ out : Grid γ, broadcast2 f a b = some out ∧ IsRect out r c ∧
      ∀ i j, i < r → j < c →
        cellAt out i j = some (f (getCell a i j) (getCell b i j)) := by
  rcases Nat.eq_zero_or_pos r with hr | hr
  · subst hr
    have ha0 : a = [] := List.length_eq_zero.mp ha.1
    have hb0 : b = [] := List.length_eq_zero.mp hb.1
    subst ha0; subst hb0
    refine ⟨[], ?_, ⟨rfl, by simp⟩, fun i j hi _ => absurd hi (Nat.not_lt_zero i)⟩
    unfold broadcast2 numRows numCols bcDim
    simp
  · have hra : numRows a = r := ha.1
    have hrb : numRows b = r := hb.1
    have hca : numCols a = c := numCols_of_rect ha hr
    have hcb : numCols b = c := numCols_of_rect hb hr
    refine ⟨(List.range r).map (fun i => (List.range c).map (fun j =>
        f (getCell a (bcIdx (numRows a) i) (bcIdx (numCols a) j))
          (getCell b (bcIdx (numRows b) i) (bcIdx (numCols b) j)))), ?_, ?_, ?_⟩
    · unfold broadcast2
      rw [hra, hrb, hca, hcb]
      unfold bcDim
      simp
    · constructor
      · simp
      · intro row hrow
        obtain ⟨i, hi, rfl⟩ := List.mem_map.mp hrow
        simp
    · intro i j hi hj
      unfold cellAt
      rw [List.getElem?_map, List.getElem?_range hi]
      simp only [Option.map_some', Option.some_bind]
      rw [List.getElem?_map, List.getElem?_range hj]
      simp only [Option.map_some']
      rw [hra, hca, hrb, hcb, bcIdx_lt hi, bcIdx_lt hj]

theorem cellAt_mapGrid {α β : Type} (f : α → β) (g : Grid α) (i j : ℕ) :
    cellAt (g.map (fun row => row.map f)) i j = (cellAt g i j).map f := by
  unfold cellAt
  rw [List.getElem?_map]
  cases g[i]? <;> simp [List.getElem?_map]

theorem isRect_mapGrid {α β : Type} (f : α → β) {g : Grid α} {r c : ℕ} (h : IsRect g r c) :
    IsRect (g.map (fun row => row.map f)) r c := by
  constructor
  · simpa using h.1
  · intro row hrow
    obtain ⟨row0, hmem, rfl⟩ := List.mem_map.mp hrow
    simpa using h.2 row0 hmem

/-- C2: for same-shaped rectangular input grids,
`compute_biophysical_suitability` succeeds and is the cell-wise logical
AND of its three conditions: composite[i,j] is true iff
slope_feasible[i,j] is true and drainage_class[i,j] ≤ drainage_threshold
and water_balance_suitability[i,j] ≥ 2. -/
theorem claim2_composite_cellwise_and (slope_feasible : Grid Bool)
    (drainage_class water_balance_suitability : Grid ℤ) (t : ℤ) (r c : ℕ)
    (hs : IsRect slope_feasible r c) (hd : IsRect drainage_class r c)
    (hw : IsRect water_balance_suitability r c) :
    ∃ out : Grid Bool,
      compute_biophysical_suitability slope_feasible drainage_class
          water_balance_suitability t = some out ∧
      IsRect out r c ∧
      ∀ i j, ∀ sv : Bool, ∀ dv wv : ℤ,
        cellAt slope_feasible i j = some sv →
        cellAt drainage_class i j = some dv →
        cellAt water_balance_suitability i j = some wv →
        cellAt out i j = some (sv && decide (dv ≤ t) && decide (2 ≤ wv)) := by
  have hdOK := isRect_mapGrid (fun v : ℤ => decide (v ≤ t)) hd
  have hwOK := isRect_mapGrid (fun v : ℤ => decide (2 ≤ v)) hw
  obtain ⟨g1, hg1, hg1rect, hg1cell⟩ := broadcast2_rect (fun x y => x && y) hs hdOK
  obtain ⟨out, hout, houtrect, houtcell⟩ := broadcast2_rect (fun x y => x && y) hg1rect hwOK
  refine ⟨out, ?_, houtrect, ?_⟩
  · simp only [compute_biophysical_suitability]
    rw [hg1]
    exact hout
  · intro i j sv dv wv hsv hdv hwv
    obtain ⟨hi, hj⟩ := cellAt_isSome_bounds hs hsv
    have hdOKcell : cellAt (drainage_class.map (fun row => row.map
        (fun v => decide (v ≤ t)))) i j = some (decide (dv ≤ t)) := by
      rw [cellAt_mapGrid, hdv]
      rfl
    have hwOKcell : cellAt (water_balance_suitability.map (fun row => row.map
        (fun v => decide (2 ≤ v)))) i j = some (decide (2 ≤ wv)) := by
      rw [cellAt_mapGrid, hwv]
      rfl
    have h1 := hg1cell i j hi hj
    have h2 := houtcell i j hi hj
    rw [h2, getCell_of_cellAt h1, getCell_of_cellAt hsv,
      getCell_of_cellAt hdOKcell, getCell_of_cellAt hwOKcell]

/-- C2 witness. -/
theorem claim2_witness :
    IsRect ([[true]] : Grid Bool) 1 1 ∧ IsRect ([[(2 : ℤ)]] : Grid ℤ) 1 1 ∧
    IsRect ([[(3 : ℤ)]] : Grid ℤ) 1 1 ∧
    (∃ out : Grid Bool,
      compute_biophysical_suitability [[true]] [[2]] [[3]] 3 = some out ∧
      IsRect out 1 1 ∧
      ∀ i j, ∀ sv : Bool, ∀ dv wv : ℤ,
        cellAt ([[true]] : Grid Bool) i j = some sv →
        cellAt ([[(2 : ℤ)]] : Grid ℤ) i j = some dv →
        cellAt ([[(3 : ℤ)]] : Grid ℤ) i j = some wv →
        cellAt out i j = some (sv && decide (dv ≤ 3) && decide (2 ≤ wv))) :=
  ⟨by decide, by decide, by decide,
    claim2_composite_cellwise_and [[true]] [[2]] [[3]] 3 1 1
      (by decide) (by decide) (by decide)⟩

theorem le_foldr_max (l : List ℕ) (x : ℕ) (hx : x ∈ l) : x ≤ l.foldr max 0 := by
  induction l with
  | nil => simp at hx
  | cons a t ih =>
    rcases List.mem_cons.mp hx with rfl | hx
    · exact le_max_left _ _
    · exact le_trans (ih hx) (le_max_right _ _)

theorem sum_le_length_mul (l : List ℕ) (m : ℕ) (h : ∀ x ∈ l, x ≤ m) :
    l.sum ≤ l.length * m := by
  induction l with
  | nil => simp
  | cons a t ih =>
    simp only [List.sum_cons, List.length_cons]
    have ha := h a (List.mem_cons_self a t)
    have ht := ih (fun x hx => h x (List.mem_cons_of_mem a hx))
    calc a + t.sum ≤ m + t.length * m := Nat.add_le_add ha ht
    _ = (t.length + 1) * m := by ring

theorem sum_of_all_eq (l : List ℕ) (cv : ℕ) (h : ∀ x ∈ l, x = cv) :
    l.sum = l.length * cv := by
  induction l with
  | nil => simp
  | cons a t ih =>
    simp only [List.sum_cons, List.length_cons]
    rw [h a (List.mem_cons_self a t), ih (fun x hx => h x (List.mem_cons_of_mem a hx))]
    ring

theorem foldr_max_of_all_eq (l : List ℕ) (cv : ℕ) (hne : l ≠ []) (h : ∀ x ∈ l, x = cv) :
    l.foldr max 0 = cv := by
  induction l with
  | nil => exact absurd rfl hne
  | cons a t ih =>
    simp only [List.foldr_cons]
    rw [h a (List.mem_cons_self a t)]
    rcases eq_or_ne t [] with rfl | hne2
    · simp
    · rw [ih hne2 (fun x hx => h x (List.mem_cons_of_mem a hx))]
      exact max_self cv

/-- A grid with at least one labeled component has a positive label
occurring somewhere in the flattened labeled array. -/
theorem exists_pos_label (g : Grid Bool) (h : 1 ≤ n_patches g) :
    ∃ lab, 1 ≤ lab ∧ lab ∈ flatLabels g := by
  unfold n_patches at h
  have hne : repList g ≠ [] := by
    intro h0
    rw [h0] at h
    simp at h
  obtain ⟨rv, hrv⟩ := List.exists_mem_of_ne_nil _ hne
  unfold repList at hrv
  have hrv2 := (List.mem_filter.mp hrv).2
  have hrvmem : rv ∈ compMinVals g := List.mem_of_elem_eq_true hrv2
  unfold compMinVals at hrvmem
  obtain ⟨p, hp, hpr⟩ := List.mem_map.mp hrvmem
  unfold trueCells at hp
  obtain ⟨i, hi, hp2⟩ := List.mem_flatMap.mp hp
  obtain ⟨j, hj, hpij⟩ := List.mem_map.mp hp2
  have hjmem := (List.mem_filter.mp hj).1
  have hjtrue := (List.mem_filter.mp hj).2
  refine ⟨labelAt g i j, ?_, ?_⟩
  · unfold labelAt
    rw [if_pos hjtrue]
    omega
  · unfold flatLabels labeledGrid
    apply List.mem_flatten.mpr
    refine ⟨(List.range (numCols g)).map (fun j => labelAt g i j), ?_, ?_⟩
    · exact List.mem_map.mpr ⟨i, hi, rfl⟩
    · exact List.mem_map.mpr ⟨j, hjmem, rfl⟩

/-- With at least one component, the patch-size list contains a positive
entry (the size of an occurring label). -/
theorem patch_sizes_mem_pos (g : Grid Bool) (h : 1 ≤ n_patches g) :
    ∃ x ∈ patch_sizes g, 1 ≤ x := by
  obtain ⟨lab, hlab1, hlabmem⟩ := exists_pos_label g h
  have hM : lab ≤ (flatLabels g).foldr max 0 := le_foldr_max _ _ hlabmem
  have hget : (patch_sizes g)[lab - 1]? = some ((flatLabels g).count lab) := by
    unfold patch_sizes bincount
    rw [List.getElem?_drop]
    have h1 : 1 + (lab - 1) = lab := by omega
    rw [h1, List.getElem?_map, List.getElem?_range (by omega)]
    simp only [Option.map_some']
  exact ⟨_, List.getElem?_mem hget, List.count_pos_iff.mpr hlabmem⟩

/-- C5 counterexample.  The claim asserts that when all patches have
equal size, the fragmentation index `mean/max` equals `1/patchCount`.
The 1×3 grid below has two equal 1-pixel patches: the index is
`mean/max = 1`, not `1/2`. -/
theorem claim5_counterexample :
    n_patches [[true, false, true]] = 2 ∧
    (∀ x ∈ patch_sizes [[true, false, true]],
      ∀ y ∈ patch_sizes [[true, false, true]], x = y) ∧
    (compute_fragmentation_index [[true, false, true]]).fragmentation_index = 1 ∧
    (compute_fragmentation_index [[true, false, true]]).fragmentation_index ≠
      1 / (n_patches [[true, false, true]] : ℚ) := by
  have hsz : patch_sizes [[true, false, true]] = [1, 1] := by decide
  have hn : n_patches [[true, false, true]] = 2 := by decide
  have hfi : (compute_fragmentation_index [[true, false, true]]).fragmentation_index = 1 := by
    unfold compute_fragmentation_index
    rw [if_neg (by decide)]
    simp only [hsz]
    norm_num
  refine ⟨hn, by decide, hfi, ?_⟩
  rw [hfi, hn]
  norm_num

/-- C5 (amended): for every boolean grid with at least one patch the
fragmentation index lies in [0, 1] and equals
`mean_patch_size / max_patch_size`; when all patches have equal size it
equals 1 (not `1/patchCount`). -/
theorem claim5_amended (g : Grid Bool) (h : 1 ≤ n_patches g) :
    0 ≤ (compute_fragmentation_index g).fragmentation_index ∧
    (compute_fragmentation_index g).fragmentation_index ≤ 1 ∧
    (compute_fragmentation_index g).fragmentation_index =
      (compute_fragmentation_index g).mean_patch_size /
        ((compute_fragmentation_index g).max_patch_size : ℚ) ∧
    ((∀ x ∈ patch_sizes g, ∀ y ∈ patch_sizes g, x = y) →
      (compute_fragmentation_index g).fragmentation_index = 1) := by
  obtain ⟨x0, hx0mem, hx0pos⟩ := patch_sizes_mem_pos g h
  have hMpos : 0 < (patch_sizes g).foldr max 0 :=
    lt_of_lt_of_le hx0pos (le_foldr_max _ _ hx0mem)
  have hLpos : 0 < (patch_sizes g).length :=
    List.length_pos.mpr (List.ne_nil_of_mem hx0mem)
  have hn0 : ¬ n_patches g = 0 := by omega
  unfold compute_fragmentation_index
  rw [if_neg hn0]
  dsimp only
  rw [if_pos hMpos]
  have hMq : (0 : ℚ) < (((patch_sizes g).foldr max 0 : ℕ) : ℚ) := by
    exact_mod_cast hMpos
  have hLq : (0 : ℚ) < (((patch_sizes g).length : ℕ) : ℚ) := by
    exact_mod_cast hLpos
  refine ⟨?_, ?_, rfl, ?_⟩
  · positivity
  · rw [div_le_one hMq, div_le_iff₀ hLq]
    have hsum : (patch_sizes g).sum ≤ (patch_sizes g).foldr max 0 * (patch_sizes g).length := by
      rw [Nat.mul_comm]
      exact sum_le_length_mul _ _ (fun x hx => le_foldr_max _ _ hx)
    exact_mod_cast hsum
  · intro hall
    have hx0all : ∀ x ∈ patch_sizes g, x = x0 := fun x hx => hall x hx x0 hx0mem
    have hmax : (patch_sizes g).foldr max 0 = x0 :=
      foldr_max_of_all_eq _ _ (List.ne_nil_of_mem hx0mem) hx0all
    have hsum : (patch_sizes g).sum = (patch_sizes g).length * x0 :=
      sum_of_all_eq _ _ hx0all
    rw [hmax, hsum]
    push_cast
    rw [mul_comm, mul_div_assoc, div_self (ne_of_gt hLq), mul_one, div_self]
    exact_mod_cast (by omega : x0 ≠ 0)

/-- C5 witness. -/
theorem claim5_witness :
    1 ≤ n_patches [[true]] ∧
    (0 ≤ (compute_fragmentation_index [[true]]).fragmentation_index ∧
      (compute_fragmentation_index [[true]]).fragmentation_index ≤ 1 ∧
      (compute_fragmentation_index [[true]]).fragmentation_index =
        (compute_fragmentation_index [[true]]).mean_patch_size /
          ((compute_fragmentation_index [[true]]).max_patch_size : ℚ) ∧
      ((∀ x ∈ patch_sizes [[true]], ∀ y ∈ patch_sizes [[true]], x = y) →
        (compute_fragmentation_index [[true]]).fragmentation_index = 1)) :=
  ⟨by decide, claim5_amended [[true]] (by decide)⟩

end AWD
